import Mathlib

/-!
Verification of the `curobo_core` packaging script (`setup.py`) of
isaac_ros_cumotion, together with a model — built from the repository's
design specification — of the batched GPU trajectory-optimization core
whose CUDA kernels the script compiles.

Part 1 embeds the build script itself: the list of CUDA extension
modules, the shared compiler-flag dictionary, the version-info
generation helper and the custom build command.

Part 2 models, from the specification, the optimization-core data
structures the claims concern: the L-BFGS curvature history, the
best-solution tracker, the line search, the L-BFGS direction
computation, the collision-cost evaluator and the tensor stepper.
-/

namespace CuroboCore

/-- The `extra_compile_args` dictionary passed to each extension:
a single `nvcc` key holding the flag list. -/
structure CompileArgs where
  nvcc : List String
  deriving Repr, DecidableEq

/-- Embedding of a `CUDAExtension(name, sources, extra_compile_args=...)`
entry of `setup.py`. -/
structure CUDAExtension where
  name : String
  sources : List String
  extra_compile_args : CompileArgs
  deriving Repr, DecidableEq

/-- `extra_cuda_args` from `setup.py` lines 128-137: the shared nvcc
flag list. -/
def extra_cuda_args : CompileArgs :=
  { nvcc :=
      [ "--threads=8"
      , "-O3"
      , "--ftz=true"
      , "--fmad=true"
      , "--prec-div=false"
      , "--prec-sqrt=false" ] }

/-- `ext_modules` from `setup.py` lines 139-183: the list of compiled
CUDA extension modules. -/
def ext_modules : List CUDAExtension :=
  [ { name := "curobo.curobolib.lbfgs_step_cu"
    , sources :=
        [ "curobo/src/curobo/curobolib/cpp/lbfgs_step_cuda.cpp"
        , "curobo/src/curobo/curobolib/cpp/lbfgs_step_kernel.cu" ]
    , extra_compile_args := extra_cuda_args }
  , { name := "curobo.curobolib.kinematics_fused_cu"
    , sources :=
        [ "curobo/src/curobo/curobolib/cpp/kinematics_fused_cuda.cpp"
        , "curobo/src/curobo/curobolib/cpp/kinematics_fused_kernel.cu" ]
    , extra_compile_args := extra_cuda_args }
  , { name := "curobo.curobolib.geom_cu"
    , sources :=
        [ "curobo/src/curobo/curobolib/cpp/geom_cuda.cpp"
        , "curobo/src/curobo/curobolib/cpp/sphere_obb_kernel.cu"
        , "curobo/src/curobo/curobolib/cpp/pose_distance_kernel.cu"
        , "curobo/src/curobo/curobolib/cpp/self_collision_kernel.cu" ]
    , extra_compile_args := extra_cuda_args }
  , { name := "curobo.curobolib.line_search_cu"
    , sources :=
        [ "curobo/src/curobo/curobolib/cpp/line_search_cuda.cpp"
        , "curobo/src/curobo/curobolib/cpp/line_search_kernel.cu"
        , "curobo/src/curobo/curobolib/cpp/update_best_kernel.cu" ]
    , extra_compile_args := extra_cuda_args }
  , { name := "curobo.curobolib.tensor_step_cu"
    , sources :=
        [ "curobo/src/curobo/curobolib/cpp/tensor_step_cuda.cpp"
        , "curobo/src/curobo/curobolib/cpp/tensor_step_kernel.cu" ]
    , extra_compile_args := extra_cuda_args }
  ]

/-- `os.path.join a b` for a relative second component. -/
def joinPath (a b : String) : String := a ++ "/" ++ b

/-- Outcome of `get_resource('isaac_ros_common_scripts_path',
'isaac_ros_common')` in `generate_version_info`: a resolved path, an
`ImportError`, or some other exception. -/
inductive ResourceResult where
  | found (path : String)
  | importError
  | otherError (msg : String)
  deriving Repr, DecidableEq

/-- The ambient process state `generate_version_info` reads: the current
working directory, the resource-resolution outcome, and whether the
invoked version-embed script exits with status zero. -/
structure BuildEnv where
  cwd : String
  resource : ResourceResult
  scriptOk : Bool
  deriving Repr, DecidableEq

/-- Embedding of `generate_version_info(project_name, source_dir)`
(`setup.py` lines 56-105).  `sys.exit(1)` is modelled as
`Except.error 1`; a normal return carries
`(output_path, install_destination)`. -/
def generate_version_info (project_name : String) (_source_dir : String)
    (env : BuildEnv) : Except Nat (String × String) :=
  let script_path? : Except Nat String :=
    if project_name = "isaac_ros_common" then
      Except.ok (joinPath "scripts" "isaac_ros_version_embed.py")
    else
      match env.resource with
      | ResourceResult.found p =>
          Except.ok (joinPath p "isaac_ros_version_embed.py")
      | ResourceResult.importError => Except.error 1
      | ResourceResult.otherError _ => Except.error 1
  match script_path? with
  | Except.error c => Except.error c
  | Except.ok _script_path =>
      let output_path := joinPath (joinPath env.cwd "build") "version_info.yaml"
      let install_destination := joinPath "share" project_name
      if env.scriptOk then Except.ok (output_path, install_destination)
      else Except.error 1

/-- A data-files entry: `(install_destination, [paths])`. -/
abbrev DataFile := String × List String

/-- Embedding of `GenerateVersionInfoCommand.run` (`setup.py` lines
31-53), restricted to its effect on `self.distribution.data_files`:
`project_path = os.getcwd()`, call `generate_version_info`, initialize
`data_files` to `[]` when it is `None`, and append the one new entry.
A `sys.exit(1)` inside `generate_version_info` terminates the process
before `data_files` is touched. -/
def generateVersionInfoCommandRun (project_name : String)
    (data_files : Option (List DataFile)) (env : BuildEnv) :
    Except Nat (List DataFile) :=
  match generate_version_info project_name env.cwd env with
  | Except.error c => Except.error c
  | Except.ok (output_path, install_destination) =>
      Except.ok ((data_files.getD []) ++ [(install_destination, [output_path])])

/-! ## Part 2: the optimization core, modelled from the specification

The CUDA kernel sources named in `ext_modules` are not part of this
repository checkout; the components they implement are modelled here
from the design specification's own description. -/

/-- A vector of rationals standing for a joint-space or trajectory
parameter vector. -/
abbrev Vec := List ℚ

/-- A curvature pair: (position-delta, gradient-delta). -/
abbrev CurvPair := Vec × Vec

/-- Dot product of two vectors. -/
def dot (a b : Vec) : ℚ := (List.zipWith (fun x y => x * y) a b).sum

/-- Scalar multiple of a vector. -/
def vscale (c : ℚ) (v : Vec) : Vec := v.map (fun x => c * x)

/-- Componentwise difference. -/
def vsub (a b : Vec) : Vec := List.zipWith (fun x y => x - y) a b

/-- Componentwise sum. -/
def vadd (a b : Vec) : Vec := List.zipWith (fun x y => x + y) a b

/-- Negation of a vector. -/
def vneg (v : Vec) : Vec := v.map (fun x => -x)

/-- Modelled from the spec: the per-batch-element L-BFGS History is an
ordered ring buffer of the last M (position-delta, gradient-delta)
pairs; the newest pair sits at the head and inserting beyond the cap M
drops the entry at the tail (the oldest). -/
def historyInsert (M : Nat) (h : List CurvPair) (p : CurvPair) : List CurvPair :=
  (p :: h).take M

/-- Modelled from the spec: the per-batch-element Best-Solution Tracker
holds the lowest cost observed so far and its trajectory snapshot. -/
structure Tracker where
  cost : ℚ
  traj : Vec
  deriving Repr, DecidableEq

/-- Modelled from the spec: the tracker is updated only when a strictly
lower cost is found. -/
def trackerUpdate (tr : Tracker) (c : ℚ) (x : Vec) : Tracker :=
  if c < tr.cost then { cost := c, traj := x } else tr

/-- Modelled from the spec: a batch element's view of the line search —
current cost, directional derivative of the cost along the descent
direction, the cost along the direction as a function of the step size
(each evaluation standing for a re-run of kinematics, collision and
aggregation), the current trajectory, the direction, and the element's
best-solution tracker. -/
structure LSElem where
  cost0 : ℚ
  slope : ℚ
  phi : ℚ → ℚ
  traj : Vec
  dir : Vec
  best : Tracker

/-- Result of the line search for one batch element: the chosen step
size (zero when rejected) and the possibly-updated tracker. -/
structure LSResult where
  step : ℚ
  best : Tracker

/-- The Armijo sufficient-decrease test at step size alpha. -/
def armijoOk (c1 : ℚ) (e : LSElem) (alpha : ℚ) : Bool :=
  decide (e.phi alpha ≤ e.cost0 + c1 * alpha * e.slope)

/-- Modelled from the spec: the line search for one batch element tries
the shared list of candidate step sizes, keeps those passing the
sufficient-decrease test, prefers the largest accepted step, and on
acceptance updates the tracker only when the new cost is strictly
lower; when no trial is accepted the step is zero and the tracker is
untouched. -/
def lineSearchElem (c1 : ℚ) (trials : List ℚ) (e : LSElem) : LSResult :=
  let accepted := trials.filter (armijoOk c1 e)
  match accepted.max? with
  | none => { step := 0, best := e.best }
  | some alpha =>
      { step := alpha
      , best := trackerUpdate e.best (e.phi alpha)
          (vadd e.traj (vscale alpha e.dir)) }

/-- Modelled from the spec: the batch line search runs every batch
element independently under the shared trial budget. -/
def batchLineSearch (c1 : ℚ) (trials : List ℚ) (es : List LSElem) :
    List LSResult :=
  es.map (lineSearchElem c1 trials)

/-- A curvature pair passes the positive-curvature guard when
Δgradient · Δposition is strictly positive. -/
def curvatureOk (p : CurvPair) : Bool := decide (0 < dot p.2 p.1)

/-- First loop of the two-loop recursion over the (newest-first) valid
pairs: returns the alpha coefficients and the reduced vector q. -/
def twoLoopFirst : List CurvPair → Vec → List ℚ × Vec
  | [], q => ([], q)
  | (s, y) :: rest, q =>
      let alpha := (1 / dot y s) * dot s q
      let out := twoLoopFirst rest (vsub q (vscale alpha y))
      (alpha :: out.1, out.2)

/-- Second loop of the two-loop recursion, consuming pairs
oldest-to-newest (hence recursing to the tail first). -/
def twoLoopSecond : List CurvPair → List ℚ → Vec → Vec
  | [], _, r => r
  | (s, y) :: rest, alphas, r =>
      match alphas with
      | [] => r
      | alpha :: as' =>
          let r' := twoLoopSecond rest as' r
          vadd r' (vscale (alpha - (1 / dot y s) * dot y r') s)

/-- The inverse-Hessian-vector product from a nonempty valid history:
the standard two-loop recursion with initial scaling
γ = (s·y)/(y·y) from the newest pair. -/
def twoLoop (valid : List CurvPair) (g : Vec) : Vec :=
  match valid with
  | [] => g
  | (s, y) :: _ =>
      let fl := twoLoopFirst valid g
      twoLoopSecond valid fl.1 (vscale (dot s y / dot y y) fl.2)

/-- The descent direction formed from an already-filtered history:
steepest descent when no valid pair remains, otherwise minus the
two-loop product. -/
def dirFromValid (valid : List CurvPair) (g : Vec) : Vec :=
  match valid with
  | [] => vneg g
  | _ :: _ => vneg (twoLoop valid g)

/-- Modelled from the spec: the L-BFGS Step rejects curvature pairs
with non-positive curvature and forms the direction from the surviving
pairs; with no surviving pair (first call, or all pairs rejected) it
falls back to steepest descent. -/
def lbfgsDirection (hist : List CurvPair) (g : Vec) : Vec :=
  dirFromValid (hist.filter curvatureOk) g

/-- Modelled from the spec: the batched L-BFGS step treats every batch
element's history and gradient independently. -/
def batchLbfgsDirection (hists : List (List CurvPair)) (grads : List Vec) :
    List Vec :=
  List.zipWith lbfgsDirection hists grads

/-- The hinge penalty on the shortfall of a distance below the safety
margin: the spec's smooth penalty example for one sphere pair. -/
def hinge (margin d : ℚ) : ℚ := max (margin - d) 0

/-- Modelled from the spec: the Collision/Geometry Cost Evaluator
aggregates a hinge penalty over the signed distances of all
sphere-obstacle and sphere-sphere pairs of one trajectory. -/
def collisionCost (margin : ℚ) (dists : List ℚ) : ℚ :=
  (dists.map (hinge margin)).sum

/-- Modelled from the spec: the Trajectory State of one batch element —
T waypoints, each holding a joint position, velocity and acceleration
(one degree of freedom shown; the batch and DOF axes are independent
copies). -/
structure Traj where
  T : Nat
  pos : Nat → ℚ
  vel : Nat → ℚ
  acc : Nat → ℚ

/-- A waypoint is locked when it is the start or the end of the
trajectory. -/
def lockedIdx (T t : Nat) : Bool := t == 0 || t == T - 1

/-- The acceleration parameters after an accepted step: locked
waypoints are not perturbed, interior waypoints receive the step's
acceleration update. -/
def stepAcc (tr : Traj) (delta : Nat → ℚ) (t : Nat) : ℚ :=
  if lockedIdx tr.T t then tr.acc t else tr.acc t + delta t

/-- The velocities after the step, propagated by explicit-Euler
integration with the configured time step dt from the locked start;
the locked end waypoint keeps its stored value. -/
def stepVel (tr : Traj) (delta : Nat → ℚ) (dt : ℚ) : Nat → ℚ
  | 0 => tr.vel 0
  | t + 1 =>
      if t + 1 = tr.T - 1 then tr.vel (tr.T - 1)
      else stepVel tr delta dt t + dt * stepAcc tr delta t

/-- The positions after the step, propagated from the updated
velocities the same way; the locked end waypoint keeps its stored
value. -/
def stepPos (tr : Traj) (delta : Nat → ℚ) (dt : ℚ) : Nat → ℚ
  | 0 => tr.pos 0
  | t + 1 =>
      if t + 1 = tr.T - 1 then tr.pos (tr.T - 1)
      else stepPos tr delta dt t + dt * stepVel tr delta dt t

/-- Modelled from the spec: the Tensor Stepper commits an accepted
acceleration step into the trajectory state, leaving locked start and
end waypoints unchanged and propagating the acceleration change to
velocity and position through the fixed-time-step integration
scheme. -/
def tensorStep (tr : Traj) (delta : Nat → ℚ) (dt : ℚ) : Traj :=
  { T := tr.T
  , pos := stepPos tr delta dt
  , vel := stepVel tr delta dt
  , acc := stepAcc tr delta }

/-! ## Theorems -/

/-- C1: the build script's extension-module list compiles exactly the
five kernel modules `lbfgs_step`, `kinematics_fused`, `geom` (built
from the sphere/OBB distance, pose distance and self-collision kernel
sources), `line_search` (including the `update_best` kernel source) and
`tensor_step` — no other extension modules and no omissions. -/
theorem ext_modules_exactly_five_kernels :
    ext_modules.map CUDAExtension.name =
      [ "curobo.curobolib.lbfgs_step_cu"
      , "curobo.curobolib.kinematics_fused_cu"
      , "curobo.curobolib.geom_cu"
      , "curobo.curobolib.line_search_cu"
      , "curobo.curobolib.tensor_step_cu" ]
    ∧ ext_modules.map CUDAExtension.sources =
      [ [ "curobo/src/curobo/curobolib/cpp/lbfgs_step_cuda.cpp"
        , "curobo/src/curobo/curobolib/cpp/lbfgs_step_kernel.cu" ]
      , [ "curobo/src/curobo/curobolib/cpp/kinematics_fused_cuda.cpp"
        , "curobo/src/curobo/curobolib/cpp/kinematics_fused_kernel.cu" ]
      , [ "curobo/src/curobo/curobolib/cpp/geom_cuda.cpp"
        , "curobo/src/curobo/curobolib/cpp/sphere_obb_kernel.cu"
        , "curobo/src/curobo/curobolib/cpp/pose_distance_kernel.cu"
        , "curobo/src/curobo/curobolib/cpp/self_collision_kernel.cu" ]
      , [ "curobo/src/curobo/curobolib/cpp/line_search_cuda.cpp"
        , "curobo/src/curobo/curobolib/cpp/line_search_kernel.cu"
        , "curobo/src/curobo/curobolib/cpp/update_best_kernel.cu" ]
      , [ "curobo/src/curobo/curobolib/cpp/tensor_step_cuda.cpp"
        , "curobo/src/curobo/curobolib/cpp/tensor_step_kernel.cu" ] ] :=
  ⟨rfl, rfl⟩

/-- C10: every one of the five CUDAExtension entries is configured with
the same `extra_compile_args` value, the shared `extra_cuda_args` nvcc
flag list `--threads=8 -O3 --ftz=true --fmad=true --prec-div=false
--prec-sqrt=false`, so no module is compiled with different
optimization flags. -/
theorem ext_modules_share_extra_cuda_args :
    ext_modules.map CUDAExtension.extra_compile_args
      = List.replicate 5 extra_cuda_args
    ∧ extra_cuda_args.nvcc =
      [ "--threads=8", "-O3", "--ftz=true", "--fmad=true"
      , "--prec-div=false", "--prec-sqrt=false" ] :=
  ⟨rfl, rfl⟩

/-- Auxiliary: the computed output path is the cwd extended by
`/build/version_info.yaml`. -/
theorem append_build_yaml (a : String) :
    a ++ "/" ++ "build" ++ "/" ++ "version_info.yaml"
      = a ++ "/build/version_info.yaml" := by
  rw [String.append_assoc, String.append_assoc, String.append_assoc]
  rfl

/-- Auxiliary: the computed install destination is `share/` extended by
the project name. -/
theorem append_share (p : String) : "share" ++ "/" ++ p = "share/" ++ p :=
  congrArg (fun s => s ++ p) rfl

/-- C8: `generate_version_info` either returns
`(<cwd>/build/version_info.yaml, share/<project_name>)` or terminates
the process with exit status 1; failure to resolve the version-embed
script for a non-`isaac_ros_common` project, and a non-zero exit of the
invoked script, both lead to exit 1 rather than a normal return. -/
theorem generate_version_info_ok_or_exit
    (project_name source_dir : String) (env : BuildEnv) :
    (generate_version_info project_name source_dir env
        = Except.ok (env.cwd ++ "/build/version_info.yaml",
            "share/" ++ project_name)
      ∨ generate_version_info project_name source_dir env = Except.error 1)
    ∧ (project_name ≠ "isaac_ros_common" →
        (∀ p, env.resource ≠ ResourceResult.found p) →
        generate_version_info project_name source_dir env = Except.error 1)
    ∧ (env.scriptOk = false →
        generate_version_info project_name source_dir env
          = Except.error 1) := by
  obtain ⟨cwd, res, sok⟩ := env
  refine ⟨?_, ?_, ?_⟩
  · by_cases hn : project_name = "isaac_ros_common"
    · cases sok
      · exact Or.inr (by simp [generate_version_info, hn])
      · exact Or.inl (by
          simp [generate_version_info, hn, joinPath, append_build_yaml,
            append_share])
    · cases res with
      | found p =>
          cases sok
          · exact Or.inr (by simp [generate_version_info, hn])
          · exact Or.inl (by
              simp [generate_version_info, hn, joinPath, append_build_yaml,
                append_share])
      | importError => exact Or.inr (by simp [generate_version_info, hn])
      | otherError m => exact Or.inr (by simp [generate_version_info, hn])
  · intro hn hres
    cases res with
    | found p => exact absurd rfl (hres p)
    | importError => simp [generate_version_info, hn]
    | otherError m => simp [generate_version_info, hn]
  · intro hsok
    cases hsok
    by_cases hn : project_name = "isaac_ros_common"
    · simp [generate_version_info, hn]
    · cases res with
      | found p => simp [generate_version_info, hn]
      | importError => simp [generate_version_info, hn]
      | otherError m => simp [generate_version_info, hn]

/-- Witness for C8: a non-`isaac_ros_common` project whose resource
resolution raises `ImportError` exits with status 1. -/
theorem generate_version_info_ok_or_exit_witness :
    ("curobo_core" ≠ "isaac_ros_common")
    ∧ (∀ p, (BuildEnv.mk "ws" ResourceResult.importError false).resource
          ≠ ResourceResult.found p)
    ∧ generate_version_info "curobo_core" "src"
        (BuildEnv.mk "ws" ResourceResult.importError false)
        = Except.error 1 :=
  ⟨by decide, fun p h => ResourceResult.noConfusion h,
    (generate_version_info_ok_or_exit "curobo_core" "src"
        (BuildEnv.mk "ws" ResourceResult.importError false)).2.1
      (by decide) (fun p h => ResourceResult.noConfusion h)⟩

/-- C9: `GenerateVersionInfoCommand.run` appends exactly one entry
`(install_destination, [output_path])` to the distribution's data-files
list, initializing it to `[]` when it was `None`; every previously
registered entry is preserved. -/
theorem run_appends_single_entry (project_name : String)
    (data_files : Option (List DataFile)) (env : BuildEnv)
    (out dest : String)
    (h : generate_version_info project_name env.cwd env
      = Except.ok (out, dest)) :
    generateVersionInfoCommandRun project_name data_files env
      = Except.ok (data_files.getD [] ++ [(dest, [out])])
    ∧ (data_files.getD [] ++ [(dest, [out])]).length
        = (data_files.getD []).length + 1
    ∧ (data_files.getD [] ++ [(dest, [out])]).take
        (data_files.getD []).length = data_files.getD [] := by
  refine ⟨by simp [generateVersionInfoCommandRun, h], by simp, ?_⟩
  exact List.take_left _ _

/-- Witness for C9: with one entry already registered, `run` returns
the two-entry list ending in the generated version-info file. -/
theorem run_appends_single_entry_witness :
    generate_version_info "isaac_ros_common"
        (BuildEnv.mk "ws" ResourceResult.importError true).cwd
        (BuildEnv.mk "ws" ResourceResult.importError true)
      = Except.ok ("ws/build/version_info.yaml", "share/isaac_ros_common")
    ∧ generateVersionInfoCommandRun "isaac_ros_common"
        (some [("a", ["b"])])
        (BuildEnv.mk "ws" ResourceResult.importError true)
      = Except.ok [("a", ["b"]),
          ("share/isaac_ros_common", ["ws/build/version_info.yaml"])] :=
  ⟨rfl,
    (run_appends_single_entry "isaac_ros_common" (some [("a", ["b"])])
      (BuildEnv.mk "ws" ResourceResult.importError true)
      "ws/build/version_info.yaml" "share/isaac_ros_common" rfl).1⟩

/-- A single insertion never leaves more than M pairs in the
history. -/
theorem historyInsert_length_le (M : Nat) (h : List CurvPair)
    (p : CurvPair) : (historyInsert M h p).length ≤ M := by
  simp only [historyInsert, List.length_take]
  exact min_le_left _ _

/-- Any insertion sequence starting from a history within the cap stays
within the cap. -/
theorem foldl_historyInsert_length_le (M : Nat) (ps : List CurvPair)
    (h0 : List CurvPair) (hle : h0.length ≤ M) :
    (ps.foldl (historyInsert M) h0).length ≤ M := by
  induction ps generalizing h0 with
  | nil => simpa using hle
  | cons p ps ih => exact ih _ (historyInsert_length_le M h0 p)

/-- C2: for every sequence of insertions the L-BFGS history length
never exceeds the cap M, and inserting a pair into a history already
holding M entries keeps the new pair and evicts exactly the oldest
stored pair (FIFO order). -/
theorem lbfgs_history_capped_fifo (M : Nat) (ps : List CurvPair)
    (h : List CurvPair) (p : CurvPair) (hM : 0 < M)
    (hlen : h.length = M) :
    (ps.foldl (historyInsert M) []).length ≤ M
    ∧ historyInsert M h p = p :: h.dropLast := by
  refine ⟨foldl_historyInsert_length_le M ps [] (by simp), ?_⟩
  obtain ⟨m, rfl⟩ : ∃ m, M = m + 1 :=
    ⟨M - 1, (Nat.succ_pred_eq_of_pos hM).symm⟩
  rw [historyInsert, List.take_succ_cons, List.dropLast_eq_take, hlen]
  simp

/-- Witness for C2: with cap 2, three insertions leave two pairs, and
inserting into a full two-pair history drops the older pair. -/
theorem lbfgs_history_capped_fifo_witness :
    0 < 2
    ∧ ([(([1], [1]) : CurvPair), (([2], [2]) : CurvPair)]).length = 2
    ∧ (([(([3], [3]) : CurvPair), (([4], [4]) : CurvPair),
          (([5], [5]) : CurvPair)]).foldl (historyInsert 2) []).length ≤ 2
    ∧ historyInsert 2 [(([1], [1]) : CurvPair), (([2], [2]) : CurvPair)]
        (([6], [6]) : CurvPair)
      = (([6], [6]) : CurvPair) ::
          ([(([1], [1]) : CurvPair), (([2], [2]) : CurvPair)]).dropLast := by
  have h := lbfgs_history_capped_fifo 2
    [(([3], [3]) : CurvPair), (([4], [4]) : CurvPair), (([5], [5]) : CurvPair)]
    [(([1], [1]) : CurvPair), (([2], [2]) : CurvPair)]
    (([6], [6]) : CurvPair) (by decide) (by decide)
  exact ⟨by decide, by decide, h.1, h.2⟩

/-- An update never increases the tracked cost. -/
theorem trackerUpdate_cost_le (tr : Tracker) (c : ℚ) (x : Vec) :
    (trackerUpdate tr c x).cost ≤ tr.cost := by
  unfold trackerUpdate
  split
  · exact le_of_lt (by assumption)
  · exact le_refl _

/-- C3: the Best-Solution Tracker's cost is non-increasing across any
sequence of observed (cost, trajectory) pairs, and an observation that
is not strictly lower than the tracked best leaves the tracker
entirely unchanged. -/
theorem tracker_cost_monotone (tr : Tracker) (c : ℚ) (x : Vec)
    (obs : List (ℚ × Vec)) :
    (trackerUpdate tr c x).cost ≤ tr.cost
    ∧ (tr.cost ≤ c → trackerUpdate tr c x = tr)
    ∧ (obs.foldl (fun t o => trackerUpdate t o.1 o.2) tr).cost
        ≤ tr.cost := by
  refine ⟨trackerUpdate_cost_le tr c x, ?_, ?_⟩
  · intro hle
    unfold trackerUpdate
    split
    · exact absurd hle (not_le.mpr (by assumption))
    · rfl
  · induction obs generalizing tr with
    | nil => exact le_refl _
    | cons o os ih =>
        exact le_trans (ih (trackerUpdate tr o.1 o.2))
          (trackerUpdate_cost_le tr o.1 o.2)

/-- Witness for C3: a tracker at cost 5 ignores an observation at cost
7 and across observations at costs 3 and 4 ends at most at 5. -/
theorem tracker_cost_monotone_witness :
    (trackerUpdate ⟨5, []⟩ 7 [1]).cost ≤ (5 : ℚ)
    ∧ ((5 : ℚ) ≤ 7)
    ∧ (trackerUpdate ⟨5, []⟩ 7 [1] = ⟨5, []⟩)
    ∧ (([((3 : ℚ), ([1] : Vec)), ((4 : ℚ), ([2] : Vec))]).foldl
        (fun t o => trackerUpdate t o.1 o.2) ⟨5, []⟩).cost ≤ (5 : ℚ) := by
  have h := tracker_cost_monotone ⟨5, []⟩ 7 [1]
    [((3 : ℚ), ([1] : Vec)), ((4 : ℚ), ([2] : Vec))]
  exact ⟨h.1, by norm_num, h.2.1 (by norm_num), h.2.2⟩

/-- C4: a batch element whose line search exhausts the trial budget
without any step passing the sufficient-decrease test takes a zero
step and keeps its tracker untouched; each batch element's result is a
function of that element alone, so all other elements are
unaffected. -/
theorem line_search_reject_isolated (c1 : ℚ) (trials : List ℚ)
    (e : LSElem) (es es2 : List LSElem) (i : Nat) :
    ((∀ alpha ∈ trials,
        ¬ (e.phi alpha ≤ e.cost0 + c1 * alpha * e.slope)) →
      (lineSearchElem c1 trials e).step = 0
      ∧ (lineSearchElem c1 trials e).best = e.best)
    ∧ (batchLineSearch c1 trials es)[i]?
        = (es[i]?).map (lineSearchElem c1 trials)
    ∧ (es2[i]? = es[i]? →
        (batchLineSearch c1 trials es2)[i]?
          = (batchLineSearch c1 trials es)[i]?) := by
  refine ⟨?_, ?_, ?_⟩
  · intro hfail
    have hfilter : trials.filter (armijoOk c1 e) = [] := by
      rw [List.filter_eq_nil_iff]
      intro a ha
      simp only [armijoOk, decide_eq_true_eq]
      exact hfail a ha
    constructor <;> simp [lineSearchElem, hfilter]
  · simp [batchLineSearch, List.getElem?_map]
  · intro hsame
    simp [batchLineSearch, List.getElem?_map, hsame]

/-- A line-search batch element whose cost strictly increases along the
direction, used to exhibit the rejection path. -/
def exElem : LSElem :=
  { cost0 := 5, slope := -1, phi := fun a => 5 + a
  , traj := [], dir := [], best := { cost := 5, traj := [] } }

/-- Witness for C4: with cost rising along the direction, both trials
fail the sufficient-decrease test, the step is zero and the tracker is
unchanged; the singleton batch maps elementwise. -/
theorem line_search_reject_isolated_witness :
    (∀ alpha ∈ ([1, 2] : List ℚ),
        ¬ (exElem.phi alpha ≤ exElem.cost0 + 1 * alpha * exElem.slope))
    ∧ ([exElem, exElem] : List LSElem)[0]? = ([exElem] : List LSElem)[0]?
    ∧ ((lineSearchElem 1 [1, 2] exElem).step = 0
        ∧ (lineSearchElem 1 [1, 2] exElem).best = exElem.best)
    ∧ (batchLineSearch 1 [1, 2] [exElem])[0]?
        = (([exElem] : List LSElem)[0]?).map (lineSearchElem 1 [1, 2])
    ∧ (batchLineSearch 1 [1, 2] [exElem, exElem])[0]?
        = (batchLineSearch 1 [1, 2] [exElem])[0]? := by
  have h := line_search_reject_isolated 1 [1, 2] exElem [exElem]
    [exElem, exElem] 0
  have hfail : ∀ alpha ∈ ([1, 2] : List ℚ),
      ¬ (exElem.phi alpha ≤ exElem.cost0 + 1 * alpha * exElem.slope) := by
    intro alpha ha
    simp only [List.mem_cons, List.not_mem_nil, or_false] at ha
    rcases ha with rfl | rfl <;> norm_num [exElem]
  exact ⟨hfail, rfl, h.1 hfail, h.2.1, h.2.2 rfl⟩

/-- C5: the L-BFGS direction ignores every curvature pair whose
curvature Δgradient·Δposition is non-positive — removing such a pair
from anywhere in the history leaves the direction unchanged — and when
every pair is rejected the direction falls back to steepest descent;
the batched computation treats each element separately, leaving all
others unaltered. -/
theorem lbfgs_rejects_nonpositive_curvature (g hg : Vec) (p : CurvPair)
    (pre post hist : List CurvPair) (hists : List (List CurvPair))
    (grads : List Vec) :
    (dot p.2 p.1 ≤ 0 →
      lbfgsDirection (pre ++ p :: post) g = lbfgsDirection (pre ++ post) g)
    ∧ ((∀ q ∈ hist, dot q.2 q.1 ≤ 0) → lbfgsDirection hist g = vneg g)
    ∧ batchLbfgsDirection (hist :: hists) (hg :: grads)
        = lbfgsDirection hist hg :: batchLbfgsDirection hists grads := by
  refine ⟨?_, ?_, rfl⟩
  · intro hle
    have hcurv : curvatureOk p = false := by
      simp only [curvatureOk, decide_eq_false_iff_not, not_lt]
      exact hle
    unfold lbfgsDirection
    rw [List.filter_append, List.filter_append, List.filter_cons, hcurv]
    simp
  · intro hall
    have hnil : hist.filter curvatureOk = [] := by
      rw [List.filter_eq_nil_iff]
      intro q hq
      simp only [curvatureOk, decide_eq_true_eq, not_lt]
      exact hall q hq
    rw [lbfgsDirection, hnil]
    rfl

/-- Witness for C5: a pair with curvature -1 is ignored by the
direction computation, and a history of only such pairs yields the
negated gradient. -/
theorem lbfgs_rejects_nonpositive_curvature_witness :
    dot (([1], [-1]) : CurvPair).2 (([1], [-1]) : CurvPair).1 ≤ 0
    ∧ (∀ q ∈ ([(([1], [-1]) : CurvPair)]), dot q.2 q.1 ≤ 0)
    ∧ lbfgsDirection [(([1], [-1]) : CurvPair), (([1], [2]) : CurvPair)] [3]
        = lbfgsDirection [(([1], [2]) : CurvPair)] [3]
    ∧ lbfgsDirection [(([1], [-1]) : CurvPair)] [3] = vneg [3]
    ∧ batchLbfgsDirection ([(([1], [-1]) : CurvPair)] :: []) ([3] :: [])
        = lbfgsDirection [(([1], [-1]) : CurvPair)] [3]
            :: batchLbfgsDirection [] [] := by
  have h := lbfgs_rejects_nonpositive_curvature [3] [3]
    (([1], [-1]) : CurvPair) [] [(([1], [2]) : CurvPair)]
    [(([1], [-1]) : CurvPair)] [] []
  have hbad : dot (([1], [-1]) : CurvPair).2 (([1], [-1]) : CurvPair).1
      ≤ 0 := by
    norm_num [dot]
  have hall : ∀ q ∈ ([(([1], [-1]) : CurvPair)]), dot q.2 q.1 ≤ 0 := by
    intro q hq
    simp only [List.mem_cons, List.not_mem_nil, or_false] at hq
    subst hq
    norm_num [dot]
  exact ⟨hbad, hall, h.1 hbad, h.2.1 hall, h.2.2⟩

/-- The hinge penalty is never negative. -/
theorem hinge_nonneg (margin d : ℚ) : 0 ≤ hinge margin d :=
  le_max_right _ _

/-- The hinge penalty vanishes at or beyond the margin. -/
theorem hinge_eq_zero (margin d : ℚ) (h : margin ≤ d) :
    hinge margin d = 0 :=
  max_eq_right (sub_nonpos.mpr h)

/-- The hinge penalty is strictly positive below the margin. -/
theorem hinge_pos (margin d : ℚ) (h : d < margin) : 0 < hinge margin d :=
  lt_max_iff.mpr (Or.inl (sub_pos.mpr h))

/-- A list of non-negative rationals has non-negative sum. -/
theorem sum_nonneg_list (l : List ℚ) (h : ∀ x ∈ l, 0 ≤ x) :
    0 ≤ l.sum := by
  induction l with
  | nil => simp
  | cons a l ih =>
      rw [List.sum_cons]
      exact add_nonneg (h a (List.mem_cons_self a l))
        (ih (fun y hy => h y (List.mem_cons_of_mem _ hy)))

/-- A list of non-negative rationals containing a positive element has
positive sum. -/
theorem sum_pos_of_mem (l : List ℚ) (x : ℚ) (hx : x ∈ l) (hpos : 0 < x)
    (hnn : ∀ y ∈ l, 0 ≤ y) : 0 < l.sum := by
  induction l with
  | nil => cases hx
  | cons a l ih =>
      rw [List.sum_cons]
      rcases List.mem_cons.mp hx with rfl | hx'
      · exact add_pos_of_pos_of_nonneg hpos
          (sum_nonneg_list l (fun y hy => hnn y (List.mem_cons_of_mem _ hy)))
      · exact add_pos_of_nonneg_of_pos (hnn a (List.mem_cons_self a l))
          (ih hx' (fun y hy => hnn y (List.mem_cons_of_mem _ hy)))

/-- Counterexample to C6 as stated: with safety margin 0 and a single
pair sitting exactly at the margin (distance 0), not every distance
exceeds the margin, yet the hinge-penalty collision cost is 0, not
strictly positive. -/
theorem collision_cost_zero_at_margin_contact :
    ¬ (∀ d ∈ ([0] : List ℚ), (0 : ℚ) < d)
    ∧ collisionCost 0 [0] = 0
    ∧ ¬ (0 < collisionCost 0 [0]) := by
  refine ⟨?_, ?_, ?_⟩
  · intro hall
    exact lt_irrefl 0 (hall 0 (List.mem_cons_self 0 []))
  · norm_num [collisionCost, hinge]
  · norm_num [collisionCost, hinge]

/-- C6 (amended): the collision cost is zero when every
sphere-obstacle and sphere-sphere distance is at least the configured
safety margin, and strictly positive when some distance is strictly
below the margin. -/
theorem collision_cost_zero_iff_clear (margin : ℚ) (dists : List ℚ) :
    ((∀ d ∈ dists, margin ≤ d) → collisionCost margin dists = 0)
    ∧ ((∃ d ∈ dists, d < margin) → 0 < collisionCost margin dists) := by
  constructor
  · intro hall
    rw [collisionCost]
    apply List.sum_eq_zero
    intro x hx
    rcases List.mem_map.mp hx with ⟨d, hd, rfl⟩
    exact hinge_eq_zero margin d (hall d hd)
  · rintro ⟨d, hd, hlt⟩
    rw [collisionCost]
    refine sum_pos_of_mem _ (hinge margin d) (List.mem_map_of_mem _ hd)
      (hinge_pos margin d hlt) ?_
    intro y hy
    rcases List.mem_map.mp hy with ⟨e, _, rfl⟩
    exact hinge_nonneg margin e

/-- Witness for C6 (amended): with margin 1, distances 1 and 2 give
zero cost, while a distance 0 makes the cost strictly positive. -/
theorem collision_cost_zero_iff_clear_witness :
    (∀ d ∈ ([1, 2] : List ℚ), (1 : ℚ) ≤ d)
    ∧ (∃ d ∈ ([0, 5] : List ℚ), d < (1 : ℚ))
    ∧ collisionCost 1 [1, 2] = 0
    ∧ 0 < collisionCost 1 [0, 5] := by
  have ha : ∀ d ∈ ([1, 2] : List ℚ), (1 : ℚ) ≤ d := by
    intro d hd
    simp only [List.mem_cons, List.not_mem_nil, or_false] at hd
    rcases hd with rfl | rfl <;> norm_num
  have hb : ∃ d ∈ ([0, 5] : List ℚ), d < (1 : ℚ) :=
    ⟨0, by simp, by norm_num⟩
  exact ⟨ha, hb, (collision_cost_zero_iff_clear 1 [1, 2]).1 ha,
    (collision_cost_zero_iff_clear 1 [0, 5]).2 hb⟩

/-- C7: the tensor stepper leaves the locked start and end waypoints of
the trajectory unchanged in position, velocity and acceleration, while
at every interior transition the updated acceleration propagates
consistently to velocity and position through the fixed-time-step
integration scheme. -/
theorem tensor_step_locks_and_propagates (tr : Traj) (delta : Nat → ℚ)
    (dt : ℚ) (t : Nat) :
    ((tensorStep tr delta dt).pos 0 = tr.pos 0
      ∧ (tensorStep tr delta dt).vel 0 = tr.vel 0
      ∧ (tensorStep tr delta dt).acc 0 = tr.acc 0)
    ∧ ((tensorStep tr delta dt).pos (tr.T - 1) = tr.pos (tr.T - 1)
      ∧ (tensorStep tr delta dt).vel (tr.T - 1) = tr.vel (tr.T - 1)
      ∧ (tensorStep tr delta dt).acc (tr.T - 1) = tr.acc (tr.T - 1))
    ∧ (t + 1 < tr.T - 1 →
        (tensorStep tr delta dt).vel (t + 1)
          = (tensorStep tr delta dt).vel t
              + dt * (tensorStep tr delta dt).acc t
        ∧ (tensorStep tr delta dt).pos (t + 1)
          = (tensorStep tr delta dt).pos t
              + dt * (tensorStep tr delta dt).vel t) := by
  refine ⟨⟨rfl, rfl, ?_⟩, ⟨?_, ?_, ?_⟩, ?_⟩
  · simp [tensorStep, stepAcc, lockedIdx]
  · cases h : tr.T - 1 with
    | zero => simp [tensorStep, stepPos]
    | succ n => simp [tensorStep, stepPos, h]
  · cases h : tr.T - 1 with
    | zero => simp [tensorStep, stepVel]
    | succ n => simp [tensorStep, stepVel, h]
  · simp [tensorStep, stepAcc, lockedIdx]
  · intro hlt
    have hne : t + 1 ≠ tr.T - 1 := Nat.ne_of_lt hlt
    exact ⟨by simp [tensorStep, stepVel, hne],
      by simp [tensorStep, stepPos, hne]⟩

/-- A four-waypoint trajectory at rest, used to exercise the tensor
stepper at an interior transition. -/
def exTraj : Traj := ⟨4, fun _ => 0, fun _ => 0, fun _ => 0⟩

/-- A unit acceleration update for every waypoint. -/
def exDelta : Nat → ℚ := fun _ => 1

/-- Witness for C7: on a four-waypoint trajectory, the transition into
waypoint 2 satisfies the integration relations after the step. -/
theorem tensor_step_locks_and_propagates_witness :
    1 + 1 < exTraj.T - 1
    ∧ ((tensorStep exTraj exDelta 1).vel (1 + 1)
        = (tensorStep exTraj exDelta 1).vel 1
            + 1 * (tensorStep exTraj exDelta 1).acc 1
      ∧ (tensorStep exTraj exDelta 1).pos (1 + 1)
        = (tensorStep exTraj exDelta 1).pos 1
            + 1 * (tensorStep exTraj exDelta 1).vel 1) :=
  ⟨by decide,
    (tensor_step_locks_and_propagates exTraj exDelta 1 1).2.2 (by decide)⟩

end CuroboCore
